import Mathlib

/-!
A verification development for the time-frequency (`.spectra`) ingestion and
processing pipeline of nenupy (`nenupy/io/tf.py`, class `Spectra` and its
helper `_ProcessingConfiguration`).

The Python source is shallowly embedded:
* numpy structured arrays of block records become `List Block`;
* the lazy dask cube becomes a nested list `List (List Mat2)` (time, frequency)
  of 2x2 coherency matrices whose entries are `Option (ℚ × ℚ)` (complex numbers
  as rational pairs, `none` standing for the NaN sentinel);
* raising a Python exception becomes returning `Except.error`;
* Python slice and round semantics are embedded explicitly (`pySlice`,
  `pySetSlice`, `np_round`).

Helper functions that live in `nenupy/io/tf_utils.py` (not part of the
analysed sources) are modelled from the specification; each such definition
carries a doc comment starting with `Modelled from the spec:`.
-/

/-! ## Generic helpers: Python slice semantics, chunking, argmin, rounding -/

/-- Normalise one Python slice endpoint for a sequence of length `n`:
a negative index counts from the end and the result is clamped to `[0, n]`. -/
def pySliceIdx (i : ℤ) (n : ℕ) : ℕ :=
  if i < 0 then (i + n).toNat else min i.toNat n

/-- Python slice `xs[lo:hi]` (step 1), with negative-index wrap-around and
clamping, as numpy/list slicing performs it. -/
def pySlice (lo hi : ℤ) (xs : List α) : List α :=
  let a := pySliceIdx lo xs.length
  let b := pySliceIdx hi xs.length
  (xs.drop a).take (b - a)

/-- Python slice assignment `xs[lo:hi] = v` (broadcasting the scalar `v` over
the selected segment); the untouched parts of the list are preserved. -/
def pySetSlice (lo hi : ℤ) (v : α) (xs : List α) : List α :=
  let a := pySliceIdx lo xs.length
  let b := max a (pySliceIdx hi xs.length)
  xs.take a ++ List.replicate (b - a) v ++ xs.drop b

/-- Split a list into consecutive chunks of `n` elements (the last chunk may be
shorter); `chunkList 0 xs = []`.  This embeds a numpy `reshape (k, n, ...)`
of the leading axis. -/
def chunkList (n : ℕ) (l : List α) : List (List α) :=
  match l with
  | [] => []
  | x :: xs =>
    if _h : n = 0 then []
    else (x :: xs).take n :: chunkList n ((x :: xs).drop n)
termination_by l.length
decreasing_by
  simp only [List.length_drop, List.length_cons]
  omega

/-- Index of the first minimum of a rational list (`np.argmin`); the empty
case (on which numpy raises) is given the junk value `0` and is never used
on an empty list in this development. -/
def argminAux : List ℚ → ℚ → ℕ → ℕ → ℕ
  | [], _, _, best => best
  | x :: xs, bv, i, best =>
    if x < bv then argminAux xs x (i + 1) i else argminAux xs bv (i + 1) best

/-- See `argminAux`. -/
def argmin : List ℚ → ℕ
  | [] => 0
  | x :: xs => argminAux xs x 1 0

/-- `np.round` (round half to even) followed by `int(...)`. -/
def np_round (q : ℚ) : ℤ :=
  if Int.fract q < 1/2 then ⌊q⌋
  else if 1/2 < Int.fract q then ⌊q⌋ + 1
  else if 2 ∣ ⌊q⌋ then ⌊q⌋ else ⌊q⌋ + 1

/-- `np.nanmean` over a 1-D slice whose entries are rationals-or-NaN:
NaN (`none`) entries are excluded from the mean; an all-NaN slice yields NaN. -/
def nanmean (xs : List (Option ℚ)) : Option ℚ :=
  let vals := xs.filterMap id
  if vals.length = 0 then none else some (vals.sum / vals.length)

/-- `np.nanmean` over a 1-D slice of plain (non-NaN) floats: the usual mean. -/
def listMean (xs : List ℚ) : ℚ := xs.sum / xs.length

/-! ## Data model: blocks of a `.spectra` file (see `BLOCK_HEADER` in tf.py) -/

/-- One complex sample, as a pair (real part, imaginary part). -/
abbrev CVal := ℚ × ℚ

/-- One per-subband (beamlet) record of a block payload: lane, beam and
channel identifiers plus the two polarization FFT arrays of shape
(`nffte`, `fftlen`) complex samples. -/
structure SubbandData where
  lane : ℤ
  beam : ℤ
  channel : ℤ
  fft0 : List (List CVal)
  fft1 : List (List CVal)
deriving DecidableEq

/-- One block record: the nine fixed header fields of `BLOCK_HEADER`
(`idx`, `TIMESTAMP`, `BLOCKSEQNUMBER` are unsigned 64-bit, the rest signed
32-bit) followed by the `data` payload of `|nbchan|` subband records. -/
structure Block where
  idx : ℕ
  TIMESTAMP : ℕ
  BLOCKSEQNUMBER : ℕ
  fftlen : ℤ
  nfft2int : ℤ
  fftovlp : ℤ
  apodisation : ℤ
  nffte : ℤ
  nbchan : ℤ
  data : List SubbandData
deriving DecidableEq

instance : Inhabited Block := ⟨⟨0, 0, 0, 0, 0, 0, 0, 0, 0, []⟩⟩

/-- `SUBBAND_WIDTH = 195312.5 Hz` (tf.py line 35). -/
def subband_width_hz : ℚ := 195312.5

/-- A 2x2 coherency matrix; every entry is complex-or-NaN. -/
structure Mat2 where
  m00 : Option CVal
  m01 : Option CVal
  m10 : Option CVal
  m11 : Option CVal
deriving DecidableEq

/-- The all-NaN matrix written by `data[...] = np.nan`. -/
def nanMat : Mat2 := ⟨none, none, none, none⟩

/-- A frequency sample is invalid-marked when all its matrix entries are NaN. -/
def matIsNaN (m : Mat2) : Bool :=
  m.m00.isNone && m.m01.isNone && m.m10.isNone && m.m11.isNone

/-- Multiply every entry of a coherency matrix by a real factor
(`data *= bandpass` broadcast); NaN entries stay NaN. -/
def matScale (b : ℚ) (m : Mat2) : Mat2 :=
  { m00 := m.m00.map (fun c => (b * c.1, b * c.2))
    m01 := m.m01.map (fun c => (b * c.1, b * c.2))
    m10 := m.m10.map (fun c => (b * c.1, b * c.2))
    m11 := m.m11.map (fun c => (b * c.1, b * c.2)) }

/-! ## ValidityFilter: `Spectra._get_bad_data_mask` (tf.py lines 275-294) -/

/-- `block_start_idx_mask[0] = False` — overwrite the first entry of the mask
("Fake value, just to trick the mask"). -/
def setFirstFalse : List Bool → List Bool
  | [] => []
  | _ :: t => false :: t

/-- `Spectra._get_bad_data_mask`: a block is flagged when its first-sample
index `idx` equals 0 (the first block excepted) or its subband count `nbchan`
is negative; the start-index term is counted twice
(`bad = idx_mask + idx_mask + nbchan_mask`, numpy boolean `+` being OR).
The `TIMESTAMP == 0` mask is computed by the source but never used. -/
def _get_bad_data_mask (data : List Block) : List Bool :=
  let _block_timestamp_mask := data.map (fun b => b.TIMESTAMP == 0)
  let block_start_idx_mask := data.map (fun b => b.idx == 0)
  let block_nsubbands_mask := data.map (fun b => decide (b.nbchan < 0))
  let block_start_idx_mask := setFirstFalse block_start_idx_mask
  List.zipWith (fun m n => (m || m) || n) block_start_idx_mask block_nsubbands_mask

/-- Reference two-condition mask following the spec's words: a block is
invalid exactly when its first-sample index equals the sentinel start value
(block 0 excepted) OR its subband count is negative — the start-index term
appearing once. -/
def _get_bad_data_mask_two_condition (data : List Block) : List Bool :=
  List.zipWith (fun m n => m || n)
    (setFirstFalse (data.map (fun b => b.idx == 0)))
    (data.map (fun b => decide (b.nbchan < 0)))

/-! ## `_ProcessingConfiguration` (tf.py lines 40-121) -/

/-- The dynamic value handed to the `beam` setter: a genuine Python `int`, a
string, or a numpy integer scalar (which is *not* a Python `int`, so it fails
the `isinstance(selected_beam, int)` check even though it denotes the same
number). -/
inductive PyBeam where
  | pyInt (n : ℤ)
  | pyStr (s : String)
  | npInt (n : ℤ)
deriving DecidableEq

/-- The dynamic value handed to the `time_range` / `frequency_range` setters:
either an astropy `Time` / `Quantity` array of rationals, or a value of the
wrong Python type. -/
inductive PyRange where
  | arr (ts : List ℚ)
  | notRangeObj
deriving DecidableEq

/-- One entry of an `edge_channels_to_remove` tuple: a Python `int` or
something else. -/
inductive PyScalar where
  | sInt (n : ℤ)
  | sOther
deriving DecidableEq

/-- The dynamic value handed to the `edge_channels_to_remove` setter. -/
inductive PyEdge where
  | eInt (n : ℤ)
  | eTuple (xs : List PyScalar)
  | eOther
deriving DecidableEq

/-- `isinstance(chan, int)` for a tuple entry. -/
def pyScalarIsInt : PyScalar → Bool
  | .sInt _ => true
  | .sOther => false

/-- The integer denoted by a (validated) tuple entry. -/
def pyScalarInt : PyScalar → ℤ
  | .sInt n => n
  | .sOther => 0

/-- `_ProcessingConfiguration`: the validated mutable parameter set.  Fields
whose Python counterpart is written through a property setter keep the
underscored backing-attribute name (`_beam`, `_time_range`,
`_frequency_range`, `_edge_channels_to_remove`). The unmodelled attributes
(dispersion/rotation measure, jump correction, dreambeam inputs) play no role
in the analysed pipeline. -/
structure ProcessingConfiguration where
  available_beams : List ℤ
  time_min : ℚ
  time_max : ℚ
  frequency_min : ℚ
  frequency_max : ℚ
  _time_range : ℚ × ℚ
  _frequency_range : ℚ × ℚ
  _beam : ℤ
  rebin_dt : Option ℚ
  rebin_df : Option ℚ
  correct_bandpass : Bool
  _edge_channels_to_remove : PyEdge
deriving DecidableEq

/-- The `beam` property setter (tf.py lines 70-77): a `TypeError` unless the
value is a Python `int`, an `IndexError` unless it is among the available
beams; only then is the backing field assigned. -/
def beam_set (cfg : ProcessingConfiguration) (selected_beam : PyBeam) :
    Except String ProcessingConfiguration :=
  match selected_beam with
  | .pyInt n =>
    if n ∈ cfg.available_beams then Except.ok { cfg with _beam := n }
    else Except.error "IndexError: Requested beam not found among available beam indices."
  | _ => Except.error "TypeError: Selected beam is expected as an integer value."

/-- The `time_range` property setter (tf.py lines 82-93).  A requested range
lying outside the available data only logs a warning (no error). -/
def time_range_set (cfg : ProcessingConfiguration) (selected_range : PyRange) :
    Except String ProcessingConfiguration :=
  match selected_range with
  | .notRangeObj => Except.error "TypeError: time_range expects an astropy.time.Time object."
  | .arr ts =>
    if ts.length ≠ 2 then Except.error "ValueError: time_range should be a length-2 Time array."
    else if ts.getD 0 0 ≥ ts.getD 1 0 then Except.error "ValueError: time_range start >= stop."
    else Except.ok { cfg with _time_range := (ts.getD 0 0, ts.getD 1 0) }

/-- The `frequency_range` property setter (tf.py lines 98-107). -/
def frequency_range_set (cfg : ProcessingConfiguration) (selected_range : PyRange) :
    Except String ProcessingConfiguration :=
  match selected_range with
  | .notRangeObj => Except.error "TypeError: frequency_range expects an astropy.units.Quantity object."
  | .arr fs =>
    if fs.length ≠ 2 then Except.error "ValueError: frequency_range should be a length-2 Quantity array."
    else if fs.getD 0 0 ≥ fs.getD 1 0 then Except.error "ValueError: frequency_range min >= max."
    else Except.ok { cfg with _frequency_range := (fs.getD 0 0, fs.getD 1 0) }

/-- The `edge_channels_to_remove` property setter (tf.py lines 112-121): a
tuple must have length 2 (`IndexError`) and integer entries (`TypeError`);
a non-tuple must be an `int` (`TypeError`).  Negative integers are accepted. -/
def edge_channels_to_remove_set (cfg : ProcessingConfiguration) (channels : PyEdge) :
    Except String ProcessingConfiguration :=
  match channels with
  | .eTuple xs =>
    if xs.length ≠ 2 then
      Except.error "IndexError: If a tuple is given to the edge_channels_to_remove argument, it must be of length 2."
    else if ¬ (xs.all pyScalarIsInt) then
      Except.error "TypeError: Edge channels to remove muste be integers."
    else Except.ok { cfg with _edge_channels_to_remove := channels }
  | .eInt _ => Except.ok { cfg with _edge_channels_to_remove := channels }
  | .eOther => Except.error "TypeError: Edge channels to remove muste be integers."

/-- `_ProcessingConfiguration.__init__` (tf.py lines 42-65): stores the file
limits, then assigns `time_range`, `frequency_range`, `beam = 0` and
`edge_channels_to_remove = 0` through their validating setters (any of which
may raise), and sets the plain defaults `rebin_dt = rebin_df = None`,
`correct_bandpass = True`.  The record literal below only provides the
placeholder field values that the subsequent setter calls overwrite. -/
def _ProcessingConfiguration_init (time_min time_max frequency_min frequency_max : ℚ)
    (available_beams : List ℤ) : Except String ProcessingConfiguration := do
  let cfg : ProcessingConfiguration :=
    { available_beams := available_beams
      time_min := time_min, time_max := time_max
      frequency_min := frequency_min, frequency_max := frequency_max
      _time_range := (time_min, time_max)
      _frequency_range := (frequency_min, frequency_max)
      _beam := 0
      rebin_dt := none, rebin_df := none
      correct_bandpass := true
      _edge_channels_to_remove := PyEdge.eInt 0 }
  let cfg ← time_range_set cfg (PyRange.arr [time_min, time_max])
  let cfg ← frequency_range_set cfg (PyRange.arr [frequency_min, frequency_max])
  let cfg ← beam_set cfg (PyBeam.pyInt 0)
  let cfg ← edge_channels_to_remove_set cfg (PyEdge.eInt 0)
  return { cfg with rebin_dt := none, rebin_df := none, correct_bandpass := true }

/-! ## Modelled helpers from `nenupy/io/tf_utils.py` (not among the analysed
sources) and the `Spectra` state -/

/-- Decimal digits of a string to a natural number (used to undo the
`str(beam)` keying when `Spectra.__init__` runs `astype(int)` on the
dictionary keys). -/
def str_to_nat (s : List Char) : ℕ :=
  s.foldl (fun acc c => acc * 10 + (c.toNat - 48)) 0

/-- `int(s)` for the decimal strings produced by `str` on an integer. -/
def str_to_int (s : String) : ℤ :=
  match s.data with
  | '-' :: rest => -(str_to_nat rest : ℤ)
  | l => (str_to_nat l : ℤ)

/-- Contiguous runs of equal beam identifiers: `(id, first index, last index)`
over the subband axis. -/
def beamRunsAux : List ℤ → ℕ → ℤ → ℕ → List (ℤ × ℕ × ℕ)
  | [], i, cur, start => [(cur, start, i - 1)]
  | b :: rest, i, cur, start =>
    if b = cur then beamRunsAux rest (i + 1) cur start
    else (cur, start, i - 1) :: beamRunsAux rest (i + 1) b i

/-- See `beamRunsAux`. -/
def beamRuns : List ℤ → List (ℤ × ℕ × ℕ)
  | [] => []
  | b :: rest => beamRunsAux rest 1 b 0

/-- Modelled from the spec: `utils.sort_beam_edges` is not under `src/`.
Per the BeamIndexer design, it scans the per-subband beam-id array of the
first time sample, groups contiguous runs of identical beam id, and maps each
beam id (keyed as a string, since the selection later looks the beam up with
`str(...)`) to an inclusive `(start, stop)` frequency-index range at channel
granularity. -/
def sort_beam_edges (beam_array : List ℤ) (n_channels : ℕ) : List (String × ℕ × ℕ) :=
  (beamRuns beam_array).map (fun r =>
    (toString r.1, r.2.1 * n_channels, (r.2.2 + 1) * n_channels - 1))

/-- Modelled from the spec: `utils.compute_spectra_time` is not under `src/`.
The concrete time axis is the block start times plus per-sample offsets:
for each block start `t0`, the samples `t0 + i * dt`, `i < ntime_per_block`. -/
def compute_spectra_time (block_start_time_unix : List ℚ) (ntime_per_block : ℕ)
    (time_step_s : ℚ) : List ℚ :=
  block_start_time_unix.flatMap (fun t0 =>
    (List.range ntime_per_block).map (fun i => t0 + (i : ℚ) * time_step_s))

/-- Modelled from the spec: `utils.compute_spectra_frequencies` is not under
`src/`.  The concrete frequency axis is the selected subband start
frequencies plus per-channel offsets. -/
def compute_spectra_frequencies (subband_start_hz : List ℚ) (n_channels : ℕ)
    (frequency_step_hz : ℚ) : List ℚ :=
  subband_start_hz.flatMap (fun f0 =>
    (List.range n_channels).map (fun i => f0 + (i : ℚ) * frequency_step_hz))

/-- Complex multiplication on rational pairs. -/
def cmul (a b : CVal) : CVal := (a.1 * b.1 - a.2 * b.2, a.1 * b.2 + a.2 * b.1)

/-- Complex conjugation on rational pairs. -/
def cconj (a : CVal) : CVal := (a.1, -a.2)

/-- The coherency matrix of one dual-polarization sample: auto-terms are the
squared magnitudes, cross-terms are `e0 * conj e1` and its conjugate. -/
def mkCoherency (e0 e1 : CVal) : Mat2 :=
  { m00 := some (e0.1 * e0.1 + e0.2 * e0.2, 0)
    m01 := some (cmul e0 (cconj e1))
    m10 := some (cconj (cmul e0 (cconj e1)))
    m11 := some (e1.1 * e1.1 + e1.2 * e1.2, 0) }

/-- Modelled from the spec: `utils.spectra_data_to_matrix` is not under
`src/`.  Per the MatrixAssembler design it converts the raw dual-polarization
FFT pairs of one block into 2x2 coherency matrices, keeping the
(subband, sample-in-block, channel) layout. -/
def spectra_data_to_matrix (subbands : List SubbandData) : List (List (List Mat2)) :=
  subbands.map (fun sb =>
    List.zipWith (fun row0 row1 => List.zipWith mkCoherency row0 row1) sb.fft0 sb.fft1)

/-- Modelled from the spec: `utils.blocks_to_tf_data` is not under `src/`.
Per the MatrixAssembler design it reshapes
(block, subband, sample-in-block, channel) into (time, frequency) with
`time = block * n_block_times + sample` and
`frequency = subband * n_channels + channel`. -/
def blocks_to_tf_data (data : List (List (List (List Mat2)))) (n_block_times : ℕ) :
    List (List Mat2) :=
  data.flatMap (fun block =>
    (List.range n_block_times).map (fun t =>
      block.flatMap (fun sb => sb.getD t [])))

/-- Modelled from the spec: `utils.get_bandpass` is not under `src/`.  The
spec only fixes it as a deterministic, channel-count-length, real-valued
correction profile (BandpassCorrector); its actual shape is unspecified and
no analysed claim depends on its values, so the simplest such profile is
used. -/
def get_bandpass (n_channels : ℕ) : List ℚ :=
  List.replicate n_channels 1

/-- Modelled from the spec: `utils.compute_stokes_parameters` is not under
`src/`.  Per the PolarizationReducer design, each requested Stokes product is
a linear combination of coherency-matrix entries; total intensity I is the
sum of the two auto-terms.  A NaN entry propagates to NaN. -/
def stokes_value (s : String) (m : Mat2) : Option ℚ :=
  match s with
  | "I" => match m.m00, m.m11 with
    | some a, some b => some (a.1 + b.1)
    | _, _ => none
  | "Q" => match m.m00, m.m11 with
    | some a, some b => some (a.1 - b.1)
    | _, _ => none
  | "U" => match m.m01, m.m10 with
    | some a, some b => some (a.1 + b.1)
    | _, _ => none
  | "V" => match m.m01, m.m10 with
    | some a, some b => some (a.2 - b.2)
    | _, _ => none
  | _ => none

/-- Modelled from the spec: see `stokes_value`.  Stacks one trailing
polarization axis onto the (time, frequency) cube. -/
def compute_stokes_parameters (data_array : List (List Mat2)) (stokes : List String) :
    List (List (List (Option ℚ))) :=
  data_array.map (fun row => row.map (fun m => stokes.map (fun s => stokes_value s m)))

/-- The post-Stokes data cube: (time, frequency, polarization) of
rational-or-NaN samples. -/
abbrev Data3 := List (List (List (Option ℚ)))

/-- The `Spectra` instance state after `__init__`: file-level parameters, the
valid-block start times, the subband start frequencies, the beam dictionary,
the assembled (time, frequency) cube and the processing configuration. -/
structure Spectra where
  _n_time_per_block : ℤ
  n_channels : ℤ
  n_subbands : ℤ
  dt : ℚ
  df : ℚ
  _block_start_unix : List ℚ
  _subband_start_hz : List ℚ
  beam_indices_dict : List (String × ℕ × ℕ)
  data : List (List Mat2)
  configuration : ProcessingConfiguration
deriving DecidableEq

/-- The file-level parameters decoded from the first block header by
`Spectra._lazy_load_data` (tf.py lines 232-248). -/
structure LazyLoad where
  _n_time_per_block : ℤ
  n_channels : ℤ
  n_subbands : ℤ
  dt : ℚ
  df : ℚ
deriving DecidableEq

/-- `Spectra._lazy_load_data`: reads the first block header (raising when the
byte buffer holds no complete header, i.e. the file has no block) and decodes
the file-level parameters: `n_time_per_block = nffte`,
`n_channels = fftlen`, `n_subbands = |nbchan|`,
`dt = n_channels * nfft2int / SUBBAND_WIDTH` seconds,
`df = SUBBAND_WIDTH / n_channels` Hz; the memory-mapped view of the whole
file is returned unchanged. -/
def _lazy_load_data (file : List Block) : Except String (LazyLoad × List Block) :=
  match file with
  | [] => Except.error "ValueError: buffer is smaller than requested size"
  | b0 :: _ =>
    Except.ok
      ({ _n_time_per_block := b0.nffte
         n_channels := b0.fftlen
         n_subbands := |b0.nbchan|
         dt := ((b0.fftlen * b0.nfft2int : ℤ) : ℚ) / subband_width_hz
         df := subband_width_hz / (b0.fftlen : ℚ) }, file)

/-- `Spectra._assemble_to_tf` (tf.py lines 296-316): filter out the bad
blocks, convert the dual-polarization FFT pairs to coherency matrices and
reshape into a (time, frequency) cube. -/
def _assemble_to_tf (data : List Block) (mask : List Bool)
    (n_block_times : ℕ) : List (List Mat2) :=
  let good := (List.zip data mask).filterMap (fun p => if p.2 then none else some p.1)
  blocks_to_tf_data (good.map (fun b => spectra_data_to_matrix b.data)) n_block_times

/-- `Spectra.__init__` (tf.py lines 127-171): decode the header, flag bad
blocks, derive the block start times (`TIMESTAMP + BLOCKSEQNUMBER /
SUBBAND_WIDTH`) of the valid blocks and the subband start frequencies
(`channel * SUBBAND_WIDTH`, taken from block 0), build the beam dictionary,
assemble the cube, and set up the default configuration.  Accessing element
`[0]` or `[-1]` of an empty start-time or subband array raises `IndexError`,
exactly as numpy does on the corresponding source lines 166-169. -/
def spectra_init (file : List Block) : Except String Spectra :=
  match _lazy_load_data file with
  | Except.error e => Except.error e
  | Except.ok (p, data) =>
    let bad_block_mask := _get_bad_data_mask data
    let good := (List.zip data bad_block_mask).filterMap
      (fun q => if q.2 then none else some q.1)
    let _block_start_unix := good.map
      (fun b => (b.TIMESTAMP : ℚ) + (b.BLOCKSEQNUMBER : ℚ) / subband_width_hz)
    let _subband_start_hz := ((data.headD default).data).map
      (fun sb => (sb.channel : ℚ) * subband_width_hz)
    let beam_indices_dict := sort_beam_edges
      (((data.headD default).data).map (fun sb => sb.beam)) p.n_channels.toNat
    let cube := _assemble_to_tf data bad_block_mask p._n_time_per_block.toNat
    match _block_start_unix.head?, _block_start_unix.getLast?,
          _subband_start_hz.head?, _subband_start_hz.getLast? with
    | some t0, some tL, some f0, some fL =>
      match _ProcessingConfiguration_init
          t0 (tL + (p._n_time_per_block : ℚ) * p.dt)
          f0 (fL + subband_width_hz)
          (beam_indices_dict.map (fun kv => str_to_int kv.1)) with
      | Except.error e => Except.error e
      | Except.ok cfg =>
        Except.ok
          { _n_time_per_block := p._n_time_per_block
            n_channels := p.n_channels
            n_subbands := p.n_subbands
            dt := p.dt
            df := p.df
            _block_start_unix := _block_start_unix
            _subband_start_hz := _subband_start_hz
            beam_indices_dict := beam_indices_dict
            data := cube
            configuration := cfg }
    | _, _, _, _ =>
      Except.error "IndexError: index 0 is out of bounds for axis 0 with size 0"

/-! ## SelectionEngine: `Spectra._select_data` (tf.py lines 318-368) -/

/-- The time indices resolved by the first half of `Spectra._select_data`:
the two bounding blocks minimise `|ceil(block_start - target)|`, the in-block
sample indices are `round((target - block_start) / dt)`, and the global
sample indices are `block * n_time_per_block + in_block`. -/
structure TimeSelection where
  block_idx_min : ℕ
  block_idx_max : ℕ
  time_idx_min_in_block : ℤ
  time_idx_max_in_block : ℤ
  time_idx_min : ℤ
  time_idx_max : ℤ
deriving DecidableEq

/-- See `TimeSelection`. -/
def _select_time_indices (sp : Spectra) : TimeSelection :=
  let tmin := sp.configuration._time_range.1
  let tmax := sp.configuration._time_range.2
  let block_idx_min := argmin (sp._block_start_unix.map (fun b => ((|⌈b - tmin⌉| : ℤ) : ℚ)))
  let block_idx_max := argmin (sp._block_start_unix.map (fun b => ((|⌈b - tmax⌉| : ℤ) : ℚ)))
  let dt_sec := sp.dt
  let i_min := np_round ((tmin - sp._block_start_unix.getD block_idx_min 0) / dt_sec)
  let i_max := np_round ((tmax - sp._block_start_unix.getD block_idx_max 0) / dt_sec)
  { block_idx_min := block_idx_min
    block_idx_max := block_idx_max
    time_idx_min_in_block := i_min
    time_idx_max_in_block := i_max
    time_idx_min := block_idx_min * sp._n_time_per_block + i_min
    time_idx_max := block_idx_max * sp._n_time_per_block + i_max }

/-- `self.beam_indices_dict[str(self.configuration.beam)]`: the beam index is
converted to a *string* key; a missing key raises `KeyError`. -/
def pyDictGet (d : List (String × ℕ × ℕ)) (key : String) : Except String (ℕ × ℕ) :=
  match d.find? (fun kv => kv.1 == key) with
  | some kv => Except.ok kv.2
  | none => Except.error "KeyError"

/-- The beam-range resolution step of `Spectra._select_data` (tf.py line 349). -/
def _select_beam_bounds (sp : Spectra) : Except String (ℕ × ℕ) :=
  pyDictGet sp.beam_indices_dict (toString sp.configuration._beam)

/-- `Spectra._select_data`: resolve the configured time range to global
sample indices; when the resolved minimum and maximum indices coincide, log
a warning and return `None` (embedded as `Except.ok none`).  Otherwise build
the time ramp, resolve the beam (through its string key) and the frequency
range at subband granularity, and slice the lazy cube. -/
def _select_data (sp : Spectra) :
    Except String (Option (List ℚ × List ℚ × List (List Mat2))) := do
  let ts := _select_time_indices sp
  if ts.time_idx_min = ts.time_idx_max then
    -- log.warning "Time selection leads to empty dataset." ; return None
    return none
  else
    let time_unix := pySlice ts.time_idx_min_in_block
      (-(sp._n_time_per_block - ts.time_idx_max_in_block) + 1)
      (compute_spectra_time
        (pySlice (ts.block_idx_min : ℤ) ((ts.block_idx_max : ℤ) + 1) sp._block_start_unix)
        sp._n_time_per_block.toNat sp.dt)
    let fr := sp.configuration._frequency_range
    let bounds ← _select_beam_bounds sp
    let beam_idx_start := bounds.1
    let beam_idx_stop := bounds.2
    let subbands_in_beam := pySlice ((beam_idx_start : ℤ) / sp.n_channels)
      (((beam_idx_stop : ℤ) + 1) / sp.n_channels) sp._subband_start_hz
    let sb_idx_min := argmin (subbands_in_beam.map (fun s => ((|⌈s - fr.1⌉| : ℤ) : ℚ)))
    let sb_idx_max := argmin (subbands_in_beam.map (fun s => ((|⌈s - fr.2⌉| : ℤ) : ℚ)))
    let frequency_idx_min := (sb_idx_min : ℤ) * sp.n_channels
    let frequency_idx_max := ((sb_idx_max : ℤ) + 1) * sp.n_channels
    let frequency_hz := compute_spectra_frequencies
      (pySlice (sb_idx_min : ℤ) ((sb_idx_max : ℤ) + 1) subbands_in_beam)
      sp.n_channels.toNat sp.df
    let d1 := sp.data.map (fun row => pySlice (beam_idx_start : ℤ) ((beam_idx_stop : ℤ) + 1) row)
    let d2 := (pySlice ts.time_idx_min (ts.time_idx_max + 1) d1).map
      (fun row => pySlice frequency_idx_min frequency_idx_max row)
    return some (frequency_hz, time_unix, d2)

/-! ## Correction stages (tf.py lines 370-419) -/

/-- `Spectra._correct_bandpass`: reshape the frequency axis into
(subband, channel), broadcast-multiply by the channel bandpass profile, and
flatten back. -/
def _correct_bandpass (data : List (List Mat2)) (n_channels : ℕ) : List (List Mat2) :=
  let bandpass := get_bandpass n_channels
  data.map (fun row =>
    ((chunkList n_channels row).map (fun sb => List.zipWith matScale bandpass sb)).flatten)

/-- `Spectra._remove_edge_channels`: reshape the frequency axis into
(subband, channel) and perform the two slice assignments
`data[:, :, :lower] = nan` then `data[:, :, n_channels - higher:] = nan`
on every subband, then flatten back. -/
def _remove_edge_channels (data : List (List Mat2)) (n_channels : ℕ)
    (lower higher : ℤ) : List (List Mat2) :=
  data.map (fun row =>
    ((chunkList n_channels row).map (fun sb =>
      pySetSlice ((n_channels : ℤ) - higher) (n_channels : ℤ) nanMat
        (pySetSlice 0 lower nanMat sb))).flatten)

/-! ## RebinEngine: `Spectra._time_frequency_rebin` (tf.py lines 421-465) -/

/-- `np.nanmean(data, axis=1)` for a (width, frequency, polarization) chunk:
the per-(frequency, polarization) NaN-excluding mean across the chunk. -/
def nanMeanAxis0 (rows : Data3) (nfreqs npols : ℕ) : List (List (Option ℚ)) :=
  (List.range nfreqs).map (fun f =>
    (List.range npols).map (fun p =>
      nanmean (rows.map (fun r => (r.getD f []).getD p none))))

/-- The time half of `Spectra._time_frequency_rebin` (the
`rebin_dt is not None` block): `tbins = floor(rebin_dt / dt)`,
`ntimes = floor(N / tbins)`, `tleftover = N % ntimes` (reported by the
source as a log message and returned here as the third component), drop the
trailing leftover samples, reshape to `(ntimes, (N - tleftover) / ntimes)`
and take the NaN-excluding mean over each bin.  `tbins <= 0` and
`ntimes = 0` reproduce the `ZeroDivisionError` (or negative-dimension
reshape error) the Python code runs into on those inputs. -/
def timeRebinStep (rebin_dt : Option ℚ) (dt : ℚ) (data : Data3) (times : List ℚ) :
    Except String (Data3 × List ℚ × ℕ) :=
  match rebin_dt with
  | none => Except.ok (data, times, 0)
  | some rdt =>
    let ntimes_i := data.length
    let nfreqs_i := (data.headD []).length
    let npols_i := ((data.headD []).headD []).length
    let tbins : ℤ := ⌊rdt / dt⌋
    if tbins ≤ 0 then Except.error "ZeroDivisionError: division by zero (time bins)"
    else
      let ntimes := ntimes_i / tbins.toNat
      if ntimes = 0 then Except.error "ZeroDivisionError: integer modulo by zero (time)"
      else
        let tleftover := ntimes_i % ntimes
        let stop : ℤ := if tleftover ≠ 0 then -(tleftover : ℤ) else (ntimes_i : ℤ)
        let width := (ntimes_i - tleftover) / ntimes
        let data2 := (chunkList width (pySlice 0 stop data)).map
          (fun c => nanMeanAxis0 c nfreqs_i npols_i)
        let times2 := (chunkList width (pySlice 0 stop times)).map listMean
        Except.ok (data2, times2, tleftover)

/-- The frequency half of `Spectra._time_frequency_rebin` (the
`rebin_df is not None` block), symmetric to `timeRebinStep` over the
frequency axis. -/
def freqRebinStep (rebin_df : Option ℚ) (df : ℚ) (data : Data3) (freqs : List ℚ) :
    Except String (Data3 × List ℚ × ℕ) :=
  match rebin_df with
  | none => Except.ok (data, freqs, 0)
  | some rdf =>
    let nfreqs_i := (data.headD []).length
    let npols_i := ((data.headD []).headD []).length
    let fbins : ℤ := ⌊rdf / df⌋
    if fbins ≤ 0 then Except.error "ZeroDivisionError: division by zero (frequency bins)"
    else
      let nfreqs := nfreqs_i / fbins.toNat
      if nfreqs = 0 then Except.error "ZeroDivisionError: integer modulo by zero (frequency)"
      else
        let fleftover := nfreqs_i % nfreqs
        let stop : ℤ := if fleftover ≠ 0 then -(fleftover : ℤ) else (nfreqs_i : ℤ)
        let width := (nfreqs_i - fleftover) / nfreqs
        let data2 := data.map (fun row =>
          (chunkList width (pySlice 0 stop row)).map (fun c =>
            (List.range npols_i).map (fun p => nanmean (c.map (fun cell => cell.getD p none)))))
        let freqs2 := (chunkList width (pySlice 0 stop freqs)).map listMean
        Except.ok (data2, freqs2, fleftover)

/-- `Spectra._time_frequency_rebin`: the time rebin block runs first, then
the frequency rebin block, mirroring the two sequential `if` blocks of the
source; returns `(freqs, times, data)` in the source's order. -/
def _time_frequency_rebin (rebin_dt rebin_df : Option ℚ) (dt df : ℚ)
    (data : Data3) (times freqs : List ℚ) :
    Except String (List ℚ × List ℚ × Data3) := do
  let r ← timeRebinStep rebin_dt dt data times
  let s ← freqRebinStep rebin_df df r.1 freqs
  return (s.2.1, r.2.1, s.1)

/-! ## `Spectra.get` (tf.py lines 191-228) -/

/-- The dense result returned by `Spectra.get` (an `SData`). -/
structure SDataResult where
  data : Data3
  time : List ℚ
  freq : List ℚ
  polar : List String
deriving DecidableEq

/-- `Spectra.get`: select, then optionally correct the bandpass, optionally
blank the subband edge channels, reduce to Stokes parameters, rebin and
materialise.  The `frequency_hz, time_unix, data = self._select_data()`
unpacking raises `TypeError` when `_select_data` returned `None` (an empty
selection): Python cannot unpack `None` into a 3-tuple. -/
def Spectra.get (sp : Spectra) (stokes : List String) : Except String SDataResult := do
  let sel ← _select_data sp
  match sel with
  | none => Except.error "TypeError: cannot unpack non-iterable NoneType object"
  | some (frequency_hz, time_unix, data0) =>
    let data1 := if sp.configuration.correct_bandpass then
        _correct_bandpass data0 sp.n_channels.toNat
      else data0
    let edge_chans := sp.configuration._edge_channels_to_remove
    let data2 :=
      if edge_chans = PyEdge.eInt 0 ∨ edge_chans = PyEdge.eTuple [.sInt 0, .sInt 0] then
        data1
      else
        match edge_chans with
        | .eTuple xs => _remove_edge_channels data1 sp.n_channels.toNat
            (pyScalarInt (xs.getD 0 (.sInt 0))) (pyScalarInt (xs.getD 1 (.sInt 0)))
        | .eInt n => _remove_edge_channels data1 sp.n_channels.toNat n n
        | .eOther => data1
    let data3 := compute_stokes_parameters data2 stokes
    let r ← _time_frequency_rebin sp.configuration.rebin_dt sp.configuration.rebin_df
      sp.dt sp.df data3 time_unix frequency_hz
    return { data := r.2.2, time := r.2.1, freq := r.1, polar := stokes }

/-! ## Generic lemmas about the helpers -/

theorem setFirstFalse_length (xs : List Bool) : (setFirstFalse xs).length = xs.length := by
  cases xs <;> simp [setFirstFalse]

theorem setFirstFalse_getD (xs : List Bool) (i : ℕ) (hi : i < xs.length) :
    (setFirstFalse xs).getD i false = if i = 0 then false else xs.getD i false := by
  cases xs with
  | nil => simp at hi
  | cons x t => cases i <;> simp [setFirstFalse]

theorem getD_map_of_lt (g : α → β) (xs : List α) (i : ℕ) (d : β) (d0 : α)
    (hi : i < xs.length) : (xs.map g).getD i d = g (xs.getD i d0) := by
  rw [List.getD_eq_getElem _ _ (by simpa using hi), List.getD_eq_getElem _ _ hi,
    List.getElem_map]

theorem zipWith_getD_bool (f : Bool → Bool → Bool) (as bs : List Bool) (i : ℕ)
    (ha : i < as.length) (hb : i < bs.length) :
    (List.zipWith f as bs).getD i false = f (as.getD i false) (bs.getD i false) := by
  induction as generalizing bs i with
  | nil => simp at ha
  | cons a as ih =>
    cases bs with
    | nil => simp at hb
    | cons b bs =>
      cases i with
      | zero => simp
      | succ i => simpa using ih bs i (by simpa using ha) (by simpa using hb)

theorem zipWith_congr_bool (f g : Bool → Bool → Bool)
    (h : ∀ a b, f a b = g a b) (as bs : List Bool) :
    List.zipWith f as bs = List.zipWith g as bs := by
  induction as generalizing bs with
  | nil => simp
  | cons a as ih =>
    cases bs with
    | nil => simp
    | cons b bs => simp [h, ih]

/-! ## Claim C1: the bad-block mask -/

/-- Claim C1: for every block array, `_get_bad_data_mask` flags block `i` as
bad exactly when (its first-sample index equals 0 and `i ≠ 0`) or its subband
count field is negative — the block at position 0 with `idx = 0` is NOT
flagged, the same index value at any other position IS flagged — and the
mask with the duplicated start-index term (`m OR m OR n`) equals the
two-condition reference mask (`m OR n`). -/
theorem C1_bad_block_mask (data : List Block) (i : ℕ) (hi : i < data.length) :
    ((_get_bad_data_mask data).getD i false = true ↔
      (((data.get ⟨i, hi⟩).idx = 0 ∧ i ≠ 0) ∨ (data.get ⟨i, hi⟩).nbchan < 0))
    ∧ _get_bad_data_mask data = _get_bad_data_mask_two_condition data := by
  constructor
  · have hlen1 : i < (setFirstFalse (data.map (fun b => b.idx == 0))).length := by
      rw [setFirstFalse_length]; simpa using hi
    have hlen2 : i < (data.map (fun b => decide (b.nbchan < 0))).length := by
      simpa using hi
    rw [_get_bad_data_mask]
    rw [zipWith_getD_bool _ _ _ i hlen1 hlen2]
    rw [setFirstFalse_getD _ _ (by simpa using hi)]
    have h1 : (data.map (fun b => b.idx == 0)).getD i false =
        ((data.getD i default).idx == 0) :=
      getD_map_of_lt (fun b : Block => b.idx == 0) data i false default hi
    have h2 : (data.map (fun b => decide (b.nbchan < 0))).getD i false =
        decide ((data.getD i default).nbchan < 0) :=
      getD_map_of_lt (fun b : Block => decide (b.nbchan < 0)) data i false default hi
    have h3 : data.getD i default = data.get ⟨i, hi⟩ := by
      rw [List.getD_eq_getElem _ _ hi]; rfl
    rw [h1, h2, h3]
    by_cases h0 : i = 0 <;> simp [h0]
  · rw [_get_bad_data_mask, _get_bad_data_mask_two_condition]
    exact zipWith_congr_bool _ _ (fun a b => by cases a <;> cases b <;> rfl) _ _

/-- Witness for C1 at a concrete two-block array: the first block has
`idx = 0` and is not flagged; the second block also has `idx = 0` and is
flagged. -/
theorem C1_bad_block_mask_witness :
    (1 < ([⟨0, 10, 0, 2, 1, 0, 0, 2, 1, []⟩,
           ⟨0, 20, 0, 2, 1, 0, 0, 2, 1, []⟩] : List Block).length)
    ∧ ((_get_bad_data_mask [⟨0, 10, 0, 2, 1, 0, 0, 2, 1, []⟩,
           ⟨0, 20, 0, 2, 1, 0, 0, 2, 1, []⟩]).getD 1 false = true ↔ True) := by
  refine ⟨by decide, ?_⟩
  have h := (C1_bad_block_mask
    [⟨0, 10, 0, 2, 1, 0, 0, 2, 1, []⟩, ⟨0, 20, 0, 2, 1, 0, 0, 2, 1, []⟩] 1 (by decide)).1
  rw [h]
  simp

/-! ## Claim C8: the decoded file-level parameters -/

/-- Claim C8: for every file whose first block header is readable,
`_lazy_load_data` succeeds and the decoded parameters satisfy
channel count = `fftlen`, subband count = `|nbchan|`, samples-per-block =
`nffte`, time step = channel_count * nfft2int / 195312.5 Hz and frequency
step = 195312.5 Hz / channel_count. -/
theorem C8_decoded_parameters (file : List Block) (b0 : Block) (rest : List Block)
    (h : file = b0 :: rest) :
    ∃ p : LazyLoad, _lazy_load_data file = Except.ok (p, file)
      ∧ p.n_channels = b0.fftlen
      ∧ p.n_subbands = |b0.nbchan|
      ∧ p._n_time_per_block = b0.nffte
      ∧ p.dt = (p.n_channels : ℚ) * (b0.nfft2int : ℚ) / (195312.5 : ℚ)
      ∧ p.df = (195312.5 : ℚ) / (p.n_channels : ℚ) := by
  subst h
  refine ⟨_, rfl, rfl, rfl, rfl, ?_, rfl⟩
  show ((b0.fftlen * b0.nfft2int : ℤ) : ℚ) / subband_width_hz = _
  rw [subband_width_hz]
  push_cast
  ring

/-- A concrete block used by the witness of C8: header fields
(idx, TIMESTAMP, BLOCKSEQNUMBER, fftlen, nfft2int, fftovlp, apodisation,
nffte, nbchan) and an empty payload. -/
def c8Block : Block := ⟨5, 10, 0, 4, 3, 0, 0, 2, -6, []⟩

/-- Witness for C8 at a concrete one-block file. -/
theorem C8_decoded_parameters_witness :
    ∃ p : LazyLoad,
      _lazy_load_data [c8Block] = Except.ok (p, [c8Block])
      ∧ p.n_channels = 4 ∧ p.n_subbands = 6 ∧ p._n_time_per_block = 2
      ∧ p.dt = (4 : ℚ) * 3 / 195312.5 ∧ p.df = (195312.5 : ℚ) / 4 := by
  obtain ⟨p, h1, h2, h3, h4, h5, h6⟩ := C8_decoded_parameters [c8Block] c8Block [] rfl
  refine ⟨p, h1, ?_, ?_, ?_, ?_, ?_⟩
  · rw [h2]; rfl
  · rw [h3]; rfl
  · rw [h4]; rfl
  · rw [h5, h2]; norm_num [c8Block]
  · rw [h6, h2]; norm_num [c8Block]

/-! ## Claims C5 and C10: the validating setters -/

/-- Claim C5: every invalid configuration value — a beam not among the
available beams, an inverted or degenerate (start >= stop) time or frequency
range, a malformed edge-channel spec (tuple not of length 2 or with
non-integer entries) — makes the corresponding setter return an error
immediately; and a successful call of a setter only replaces its own field
with a validated value, so no field is ever observed in an invalid state
(on an error no new configuration is produced at all, leaving the previously
stored fields unchanged). -/
theorem C5_validating_setters (cfg : ProcessingConfiguration) :
    (∀ n : ℤ, n ∉ cfg.available_beams →
      ∃ e, beam_set cfg (PyBeam.pyInt n) = Except.error e)
    ∧ (∀ v cfg2, beam_set cfg v = Except.ok cfg2 →
      cfg2._beam ∈ cfg.available_beams ∧ cfg2 = { cfg with _beam := cfg2._beam })
    ∧ (∀ t0 t1 : ℚ, t0 ≥ t1 →
      ∃ e, time_range_set cfg (PyRange.arr [t0, t1]) = Except.error e)
    ∧ (∀ v cfg2, time_range_set cfg v = Except.ok cfg2 →
      cfg2._time_range.1 < cfg2._time_range.2
        ∧ cfg2 = { cfg with _time_range := cfg2._time_range })
    ∧ (∀ f0 f1 : ℚ, f0 ≥ f1 →
      ∃ e, frequency_range_set cfg (PyRange.arr [f0, f1]) = Except.error e)
    ∧ (∀ v cfg2, frequency_range_set cfg v = Except.ok cfg2 →
      cfg2._frequency_range.1 < cfg2._frequency_range.2
        ∧ cfg2 = { cfg with _frequency_range := cfg2._frequency_range })
    ∧ (∀ xs : List PyScalar, xs.length ≠ 2 →
      ∃ e, edge_channels_to_remove_set cfg (PyEdge.eTuple xs) = Except.error e)
    ∧ (∀ xs : List PyScalar, ¬ xs.all pyScalarIsInt →
      ∃ e, edge_channels_to_remove_set cfg (PyEdge.eTuple xs) = Except.error e) := by
  refine ⟨?_, ?_, ?_, ?_, ?_, ?_, ?_, ?_⟩
  · intro n hn
    refine ⟨"IndexError: Requested beam not found among available beam indices.", ?_⟩
    simp [beam_set, hn]
  · intro v cfg2 h
    cases v with
    | pyInt n =>
      by_cases hn : n ∈ cfg.available_beams
      · simp [beam_set, hn] at h
        subst h
        exact ⟨hn, rfl⟩
      · simp [beam_set, hn] at h
    | pyStr s => simp [beam_set] at h
    | npInt n => simp [beam_set] at h
  · intro t0 t1 ht
    refine ⟨"ValueError: time_range start >= stop.", ?_⟩
    simp only [time_range_set]
    rw [if_neg (by simp), if_pos (by simpa using ht)]
  · intro v cfg2 h
    cases v with
    | notRangeObj => simp [time_range_set] at h
    | arr ts =>
      simp only [time_range_set] at h
      by_cases hl : ts.length = 2
      · rw [if_neg (by simp [hl])] at h
        by_cases hord : ts.getD 0 0 ≥ ts.getD 1 0
        · rw [if_pos hord] at h; cases h
        · rw [if_neg hord] at h
          cases h
          exact ⟨by simpa using not_le.mp hord, rfl⟩
      · rw [if_pos hl] at h; cases h
  · intro f0 f1 hf
    refine ⟨"ValueError: frequency_range min >= max.", ?_⟩
    simp only [frequency_range_set]
    rw [if_neg (by simp), if_pos (by simpa using hf)]
  · intro v cfg2 h
    cases v with
    | notRangeObj => simp [frequency_range_set] at h
    | arr fs =>
      simp only [frequency_range_set] at h
      by_cases hl : fs.length = 2
      · rw [if_neg (by simp [hl])] at h
        by_cases hord : fs.getD 0 0 ≥ fs.getD 1 0
        · rw [if_pos hord] at h; cases h
        · rw [if_neg hord] at h
          cases h
          exact ⟨by simpa using not_le.mp hord, rfl⟩
      · rw [if_pos hl] at h; cases h
  · intro xs hxs
    refine ⟨"IndexError: If a tuple is given to the edge_channels_to_remove argument, it must be of length 2.", ?_⟩
    simp [edge_channels_to_remove_set, hxs]
  · intro xs hxs
    by_cases hl : xs.length = 2
    · refine ⟨"TypeError: Edge channels to remove muste be integers.", ?_⟩
      simp only [edge_channels_to_remove_set]
      rw [if_neg (by simp [hl]), if_pos (by simpa using hxs)]
    · refine ⟨"IndexError: If a tuple is given to the edge_channels_to_remove argument, it must be of length 2.", ?_⟩
      simp [edge_channels_to_remove_set, hl]

/-- A concrete configuration (available beams = [0], valid ranges) used by
the witness of C5. -/
def cfgW5 : ProcessingConfiguration :=
  ⟨[0], 0, 10, 0, 100, (0, 10), (0, 100), 0, none, none, true, PyEdge.eInt 0⟩

/-- Witness for C5: each invalid value makes its setter error on the
concrete configuration `cfgW5`. -/
theorem C5_validating_setters_witness :
    ((5 : ℤ) ∉ cfgW5.available_beams
      ∧ ∃ e, beam_set cfgW5 (PyBeam.pyInt 5) = Except.error e)
    ∧ ((3 : ℚ) ≥ 3 ∧ ∃ e, time_range_set cfgW5 (PyRange.arr [3, 3]) = Except.error e)
    ∧ ((7 : ℚ) ≥ 2 ∧ ∃ e, frequency_range_set cfgW5 (PyRange.arr [7, 2]) = Except.error e)
    ∧ (([PyScalar.sInt 1] : List PyScalar).length ≠ 2
      ∧ ∃ e, edge_channels_to_remove_set cfgW5 (PyEdge.eTuple [PyScalar.sInt 1]) = Except.error e)
    ∧ (¬ ([PyScalar.sInt 1, PyScalar.sOther] : List PyScalar).all pyScalarIsInt
      ∧ ∃ e, edge_channels_to_remove_set cfgW5
          (PyEdge.eTuple [PyScalar.sInt 1, PyScalar.sOther]) = Except.error e) := by
  obtain ⟨h1, _, h3, _, h5, _, h7, h8⟩ := C5_validating_setters cfgW5
  exact ⟨⟨by decide, h1 5 (by decide)⟩,
    ⟨by norm_num, h3 3 3 (by norm_num)⟩,
    ⟨by norm_num, h5 7 2 (by norm_num)⟩,
    ⟨by decide, h7 [PyScalar.sInt 1] (by decide)⟩,
    ⟨by decide, h8 [PyScalar.sInt 1, PyScalar.sOther] (by decide)⟩⟩

/-- Claim C10: any value that is not a built-in Python `int` — a string such
as "0" or a numpy integer scalar — makes the `beam` setter raise `TypeError`
even when it denotes an available beam; and the selection step resolves the
beam through the *string* key `str(beam)` of the beam dictionary. -/
theorem C10_beam_type_strictness (cfg : ProcessingConfiguration) :
    (∀ s : String, beam_set cfg (PyBeam.pyStr s) =
      Except.error "TypeError: Selected beam is expected as an integer value.")
    ∧ (∀ n : ℤ, n ∈ cfg.available_beams → beam_set cfg (PyBeam.npInt n) =
      Except.error "TypeError: Selected beam is expected as an integer value.")
    ∧ (∀ sp : Spectra,
      _select_beam_bounds sp = pyDictGet sp.beam_indices_dict (toString sp.configuration._beam)) :=
  ⟨fun _ => rfl, fun _ _ => rfl, fun _ => rfl⟩

/-- A concrete configuration (available beams = [0]) used by the witness of
C10. -/
def cfgW10 : ProcessingConfiguration :=
  ⟨[0], 0, 10, 0, 100, (0, 10), (0, 100), 0, none, none, true, PyEdge.eInt 0⟩

/-- Witness for C10: the string "0" and the numpy scalar 0 denote the
available beam 0 of `cfgW10`, yet both are rejected with `TypeError`. -/
theorem C10_beam_type_strictness_witness :
    str_to_int "0" = 0
    ∧ (0 : ℤ) ∈ cfgW10.available_beams
    ∧ beam_set cfgW10 (PyBeam.pyStr "0") =
        Except.error "TypeError: Selected beam is expected as an integer value."
    ∧ beam_set cfgW10 (PyBeam.npInt 0) =
        Except.error "TypeError: Selected beam is expected as an integer value." := by
  obtain ⟨h1, h2, _⟩ := C10_beam_type_strictness cfgW10
  exact ⟨by decide, by decide, h1 "0", h2 0 (by decide)⟩

/-! ## Claim C2: empty time selection makes `get` raise -/

/-- Claim C2 (divergence): whenever the resolved minimum and maximum time
indices coincide, `_select_data` logs the warning and returns `None`, but
`Spectra.get` then unpacks that `None` into a 3-tuple and raises
`TypeError` — it does *not* return an empty result. -/
theorem C2_empty_selection_get_raises (sp : Spectra) (stokes : List String)
    (h : (_select_time_indices sp).time_idx_min = (_select_time_indices sp).time_idx_max) :
    Spectra.get sp stokes =
      Except.error "TypeError: cannot unpack non-iterable NoneType object" := by
  have hsel : _select_data sp = Except.ok none := by
    unfold _select_data
    rw [if_pos h]
    rfl
  unfold Spectra.get
  rw [hsel]
  rfl

/-- The configuration of the concrete C2 witness: a valid time range
(0, 2/5) located far before the single data block at unix time 100. -/
def cfgC2 : ProcessingConfiguration :=
  ⟨[0], 100, 102, 1, 2, (0, 2/5), (1, 2), 0, none, none, true, PyEdge.eInt 0⟩

/-- The concrete `Spectra` state of the C2 witness: one block starting at
unix time 100, `dt = 1`, two samples per block. -/
def spC2 : Spectra :=
  ⟨2, 2, 1, 1, 1, [100], [10], [("0", 0, 3)], [], cfgC2⟩

/-- Witness for C2: on `spC2` the requested range lies entirely before the
covered span, both resolved indices coincide, and `get` raises. -/
theorem C2_empty_selection_get_raises_witness :
    (_select_time_indices spC2).time_idx_min = (_select_time_indices spC2).time_idx_max
    ∧ Spectra.get spC2 ["I"] =
      Except.error "TypeError: cannot unpack non-iterable NoneType object" := by
  have h : (_select_time_indices spC2).time_idx_min
      = (_select_time_indices spC2).time_idx_max := by
    norm_num [_select_time_indices, spC2, cfgC2, argmin, argminAux, np_round, Int.fract]
  exact ⟨h, C2_empty_selection_get_raises spC2 ["I"] h⟩

/-! ## Claim C3: a fully-invalid file -/

/-- Claim C3, amended: the validity filter itself is a total function (it
never raises; it returns one flag per block), but opening a file in which
every block is flagged invalid does NOT succeed: `Spectra.__init__` raises
`IndexError` when the default configuration accesses element `[0]` of the
empty valid-block start-time array (tf.py line 166). -/
theorem C3_fully_invalid_file_raises (file : List Block)
    (hne : file ≠ []) (hbad : ∀ b ∈ _get_bad_data_mask file, b = true) :
    (∀ data : List Block, (_get_bad_data_mask data).length = data.length)
    ∧ ∃ e, spectra_init file = Except.error e := by
  constructor
  · intro data
    simp [_get_bad_data_mask, setFirstFalse_length]
  · obtain ⟨b0, rest, rfl⟩ : ∃ b0 rest, file = b0 :: rest := by
      cases file with
      | nil => exact absurd rfl hne
      | cons b0 rest => exact ⟨b0, rest, rfl⟩
    refine ⟨"IndexError: index 0 is out of bounds for axis 0 with size 0", ?_⟩
    have hgood : (List.zip (b0 :: rest) (_get_bad_data_mask (b0 :: rest))).filterMap
        (fun q => if q.2 then none else some q.1) = [] := by
      rw [List.filterMap_eq_nil_iff]
      intro q hq
      have h2 := (List.of_mem_zip hq).2
      rw [hbad q.2 h2]
      rfl
    unfold spectra_init
    simp only [_lazy_load_data]
    rw [hgood]
    rfl

/-- A concrete fully-invalid file for C3: both blocks have a negative
subband count (`nbchan = -1`), so every block is flagged. -/
def c3File : List Block := [⟨5, 10, 0, 2, 1, 0, 0, 2, -1, []⟩, ⟨7, 20, 0, 2, 1, 0, 0, 2, -1, []⟩]

/-- Counterexample for C3: on `c3File` every block is flagged invalid, yet
opening the file does NOT succeed — `spectra_init` raises
`IndexError` instead of proceeding with an empty time range. -/
theorem C3_fully_invalid_file_counterexample :
    _get_bad_data_mask c3File = [true, true]
    ∧ spectra_init c3File =
      Except.error "IndexError: index 0 is out of bounds for axis 0 with size 0" := by
  constructor
  · rfl
  · rfl

/-- Witness for C3: the amended theorem applied to the concrete fully-invalid
file `c3File`. -/
theorem C3_fully_invalid_file_raises_witness :
    (_get_bad_data_mask [(⟨5, 10, 0, 2, 1, 0, 0, 2, -1, []⟩ : Block)]).length = 1
    ∧ ∃ e, spectra_init [(⟨5, 10, 0, 2, 1, 0, 0, 2, -1, []⟩ : Block)] = Except.error e := by
  obtain ⟨h1, h2⟩ := C3_fully_invalid_file_raises
    [(⟨5, 10, 0, 2, 1, 0, 0, 2, -1, []⟩ : Block)] (by decide) (by decide)
  exact ⟨h1 [(⟨5, 10, 0, 2, 1, 0, 0, 2, -1, []⟩ : Block)], h2⟩

/-! ## Lemmas about `chunkList`, `pySlice` and `pySetSlice` -/

theorem chunkList_nil (n : ℕ) : chunkList n ([] : List α) = [] := by
  rw [chunkList]

theorem chunkList_of_ne_nil (n : ℕ) (l : List α) (hl : l ≠ []) (hn : n ≠ 0) :
    chunkList n l = l.take n :: chunkList n (l.drop n) := by
  cases l with
  | nil => exact absurd rfl hl
  | cons x xs => rw [chunkList]; simp [hn]

theorem chunkList_append (n : ℕ) (hn : 0 < n) (ys xs : List α) (hy : ys.length = n) :
    chunkList n (ys ++ xs) = ys :: chunkList n xs := by
  have hyne : ys ≠ [] := by
    intro h
    rw [h] at hy
    simp at hy
    omega
  have hne : ys ++ xs ≠ [] := by simp [hyne]
  rw [chunkList_of_ne_nil n _ hne (by omega)]
  congr 1
  · rw [← hy, List.take_left]
  · rw [← hy, List.drop_left]

theorem chunkList_flatten_of_mem_length (n : ℕ) (hn : 0 < n) (chunks : List (List α))
    (h : ∀ c ∈ chunks, c.length = n) : chunkList n chunks.flatten = chunks := by
  induction chunks with
  | nil => simp [chunkList_nil]
  | cons c cs ih =>
    rw [List.flatten_cons, chunkList_append n hn c cs.flatten (h c (by simp))]
    rw [ih (fun d hd => h d (by simp [hd]))]

theorem flatten_chunkList (n : ℕ) (hn : 0 < n) (l : List α) :
    (chunkList n l).flatten = l := by
  generalize hlen : l.length = len
  induction len using Nat.strong_induction_on generalizing l with
  | _ len ih =>
    cases l with
    | nil => simp [chunkList_nil]
    | cons x xs =>
      rw [chunkList_of_ne_nil n _ (by simp) (by omega), List.flatten_cons]
      have hd : ((x :: xs).drop n).length < len := by
        rw [← hlen]
        simp only [List.length_drop, List.length_cons]
        omega
      rw [ih _ hd _ rfl, List.take_append_drop]

theorem chunkList_length_of_mul (n : ℕ) (hn : 0 < n) (k : ℕ) (l : List α)
    (hl : l.length = k * n) : (chunkList n l).length = k := by
  induction k generalizing l with
  | zero =>
    simp only [Nat.zero_mul] at hl
    have : l = [] := List.length_eq_zero.mp hl
    subst this
    simp [chunkList_nil]
  | succ k ih =>
    have hpos : 0 < (k + 1) * n := Nat.mul_pos (Nat.succ_pos k) hn
    have hne : l ≠ [] := by
      intro h
      subst h
      simp at hl
      omega
    rw [chunkList_of_ne_nil n _ hne (by omega)]
    have hdrop : (l.drop n).length = k * n := by
      rw [List.length_drop, hl, Nat.succ_mul, Nat.add_sub_cancel]
    simp [ih _ hdrop]

theorem mem_chunkList_length (n : ℕ) (hn : 0 < n) :
    ∀ (k : ℕ) (l : List α), l.length = k * n →
      ∀ c ∈ chunkList n l, c.length = n := by
  intro k
  induction k with
  | zero =>
    intro l hl c hc
    simp only [Nat.zero_mul] at hl
    have : l = [] := List.length_eq_zero.mp hl
    subst this
    rw [chunkList_nil] at hc
    simp at hc
  | succ k ih =>
    intro l hl c hc
    have hpos : 0 < (k + 1) * n := Nat.mul_pos (Nat.succ_pos k) hn
    have hlen : n ≤ l.length := by
      rw [hl, Nat.succ_mul]
      omega
    have hne : l ≠ [] := by
      intro h
      subst h
      simp at hl
      omega
    rw [chunkList_of_ne_nil n _ hne (by omega)] at hc
    rcases List.mem_cons.mp hc with h | h
    · subst h
      rw [List.length_take]
      omega
    · refine ih (l.drop n) ?_ c h
      rw [List.length_drop, hl, Nat.succ_mul, Nat.add_sub_cancel]

theorem chunkList_getD (n : ℕ) (hn : 0 < n) (l : List α) (i : ℕ) :
    (chunkList n l).getD i [] = (l.drop (i * n)).take n := by
  induction i generalizing l with
  | zero =>
    cases l with
    | nil => simp [chunkList_nil]
    | cons x xs => rw [chunkList_of_ne_nil n _ (by simp) (by omega)]; simp
  | succ i ih =>
    cases l with
    | nil => simp [chunkList_nil]
    | cons x xs =>
      rw [chunkList_of_ne_nil n _ (by simp) (by omega)]
      show (chunkList n ((x :: xs).drop n)).getD i [] = _
      rw [ih ((x :: xs).drop n), List.drop_drop]
      congr 2
      ring

theorem chunkList_one (l : List α) : chunkList 1 l = l.map (fun a => [a]) := by
  induction l with
  | nil => simp [chunkList_nil]
  | cons x xs ih =>
    rw [chunkList_of_ne_nil 1 _ (by simp) (by omega)]
    simpa using ih

theorem mem_of_mem_chunkList (n : ℕ) (hn : 0 < n) (l : List α) (c : List α)
    (hc : c ∈ chunkList n l) (a : α) (ha : a ∈ c) : a ∈ l := by
  rw [← flatten_chunkList n hn l]
  exact List.mem_flatten.mpr ⟨c, hc, ha⟩

theorem pySlice_zero_natCast (xs : List α) : pySlice 0 (xs.length : ℤ) xs = xs := by
  simp only [pySlice, pySliceIdx]
  rw [if_neg (by omega), if_neg (by omega)]
  simp

theorem pySlice_zero_neg (m : ℕ) (xs : List α) (hm : 0 < m) (hml : m ≤ xs.length) :
    pySlice 0 (-(m : ℤ)) xs = xs.take (xs.length - m) := by
  have ha : pySliceIdx 0 xs.length = 0 := by simp [pySliceIdx]
  have hb : pySliceIdx (-(m : ℤ)) xs.length = xs.length - m := by
    simp only [pySliceIdx]
    rw [if_pos (by omega)]
    omega
  simp only [pySlice, ha, hb]
  simp

theorem pySlice_leftover (m : ℕ) (xs : List α) (hml : m ≤ xs.length) :
    pySlice 0 (if m ≠ 0 then -(m : ℤ) else (xs.length : ℤ)) xs
      = xs.take (xs.length - m) := by
  by_cases hm : m = 0
  · subst hm
    simp [pySlice_zero_natCast]
  · rw [if_pos hm, pySlice_zero_neg m xs (by omega) hml]

theorem countP_replicate_true (p : α → Bool) (n : ℕ) (x : α) (hx : p x = true) :
    (List.replicate n x).countP p = n := by
  induction n with
  | zero => simp
  | succ n ih => simp [List.replicate_succ, List.countP_cons, hx, ih]

theorem pySetSlice_zero_le (k : ℕ) (v : α) (xs : List α) (hk : k ≤ xs.length) :
    pySetSlice 0 (k : ℤ) v xs = List.replicate k v ++ xs.drop k := by
  have ha : pySliceIdx 0 xs.length = 0 := by simp [pySliceIdx]
  have hb : pySliceIdx (k : ℤ) xs.length = k := by
    simp only [pySliceIdx]
    rw [if_neg (by omega)]
    omega
  simp [pySetSlice, ha, hb]

theorem pySetSlice_upper (n k : ℕ) (v : α) (ys : List α) (hlen : ys.length = n)
    (hk : k ≤ n) :
    pySetSlice ((n : ℤ) - (k : ℤ)) (n : ℤ) v ys
      = ys.take (n - k) ++ List.replicate k v := by
  have ha : pySliceIdx ((n : ℤ) - (k : ℤ)) ys.length = n - k := by
    simp only [pySliceIdx, hlen]
    rw [if_neg (by omega)]
    omega
  have hb : pySliceIdx (n : ℤ) ys.length = n := by
    simp only [pySliceIdx, hlen]
    rw [if_neg (by omega)]
    omega
  simp only [pySetSlice, ha, hb]
  have hmax : max (n - k) n = n := by omega
  rw [hmax]
  have h1 : n - (n - k) = k := by omega
  have h2 : ys.drop n = [] := List.drop_of_length_le (by omega)
  rw [h1, h2, List.append_nil]

theorem pySetSlice_of_lo_ge (lo hi : ℤ) (v : α) (xs : List α)
    (h : (xs.length : ℤ) ≤ lo) : pySetSlice lo hi v xs = xs := by
  have ha : pySliceIdx lo xs.length = xs.length := by
    simp only [pySliceIdx]
    rw [if_neg (by omega)]
    omega
  have hb : pySliceIdx hi xs.length ≤ xs.length := by
    simp only [pySliceIdx]
    split <;> omega
  simp only [pySetSlice, ha]
  have hmax : max xs.length (pySliceIdx hi xs.length) = xs.length := by omega
  rw [hmax]
  simp

theorem pySetSlice_zero_zero (v : α) (xs : List α) : pySetSlice 0 0 v xs = xs := by
  simp [pySetSlice, pySliceIdx]

/-- The two slice assignments of `_remove_edge_channels` on one subband of
exactly `nchan` channels, in canonical form: the lowest `k` and highest `k`
channels become the NaN matrix and the middle is untouched. -/
theorem maskSub_canonical (nchan k : ℕ) (sb : List Mat2) (hlen : sb.length = nchan)
    (h2k : 2 * k ≤ nchan) :
    pySetSlice ((nchan : ℤ) - (k : ℤ)) (nchan : ℤ) nanMat (pySetSlice 0 (k : ℤ) nanMat sb)
      = List.replicate k nanMat ++ ((sb.drop k).take (nchan - 2 * k))
        ++ List.replicate k nanMat := by
  rw [pySetSlice_zero_le k nanMat sb (by omega)]
  have hlen2 : (List.replicate k nanMat ++ sb.drop k).length = nchan := by
    simp [hlen]
    omega
  rw [pySetSlice_upper nchan k nanMat _ hlen2 (by omega)]
  have htake : (List.replicate k nanMat ++ sb.drop k).take (nchan - k)
      = List.replicate k nanMat ++ (sb.drop k).take (nchan - 2 * k) := by
    rw [List.take_append_eq_append_take]
    rw [List.take_of_length_le (by simp; omega)]
    congr 1
    simp only [List.length_replicate]
    congr 1
    omega
  rw [htake, List.append_assoc]

/-! ## Claim C6: edge-channel masking -/

/-- Claim C6: for a cube whose frequency axis splits into subbands of exactly
`nchan` channels and whose samples are all valid, masking `k` lower and `k`
upper edge channels (with `2k ≤ nchan`) sets to NaN exactly the lowest `k`
and highest `k` channels of every subband — leaving the middle untouched, so
each subband of the result carries exactly `2k` invalid-marked frequency
samples, independent of the subband count — and the operation with both
counts zero is a no-op. -/
theorem C6_edge_masking (data : List (List Mat2)) (nchan k : ℕ)
    (hn : 0 < nchan) (h2k : 2 * k ≤ nchan)
    (hdiv : ∀ row ∈ data, nchan ∣ row.length)
    (hvalid : ∀ row ∈ data, ∀ m ∈ row, matIsNaN m = false) :
    (_remove_edge_channels data nchan (k : ℤ) (k : ℤ)
      = data.map (fun row => ((chunkList nchan row).map (fun sb =>
          List.replicate k nanMat ++ ((sb.drop k).take (nchan - 2 * k))
            ++ List.replicate k nanMat)).flatten))
    ∧ (∀ row ∈ _remove_edge_channels data nchan (k : ℤ) (k : ℤ),
        ∀ sb ∈ chunkList nchan row, sb.countP matIsNaN = 2 * k)
    ∧ _remove_edge_channels data nchan 0 0 = data := by
  have hchunklen : ∀ row ∈ data, ∀ sb ∈ chunkList nchan row, sb.length = nchan := by
    intro row hrow sb hsb
    obtain ⟨c, hc⟩ := hdiv row hrow
    exact mem_chunkList_length nchan hn c row (by rw [hc]; ring) sb hsb
  have hcanon : _remove_edge_channels data nchan (k : ℤ) (k : ℤ)
      = data.map (fun row => ((chunkList nchan row).map (fun sb =>
          List.replicate k nanMat ++ ((sb.drop k).take (nchan - 2 * k))
            ++ List.replicate k nanMat)).flatten) := by
    unfold _remove_edge_channels
    apply List.map_congr_left
    intro row hrow
    congr 1
    apply List.map_congr_left
    intro sb hsb
    exact maskSub_canonical nchan k sb (hchunklen row hrow sb hsb) h2k
  refine ⟨hcanon, ?_, ?_⟩
  · intro row2 hrow2 sb2 hsb2
    rw [hcanon] at hrow2
    obtain ⟨row, hrow, hroweq⟩ := List.mem_map.mp hrow2
    subst hroweq
    have hcanonlen : ∀ c2 ∈ (chunkList nchan row).map (fun sb =>
        List.replicate k nanMat ++ ((sb.drop k).take (nchan - 2 * k))
          ++ List.replicate k nanMat), c2.length = nchan := by
      intro c2 hc2
      obtain ⟨sb, hsb, hsbeq⟩ := List.mem_map.mp hc2
      subst hsbeq
      have hsblen := hchunklen row hrow sb hsb
      simp only [List.length_append, List.length_replicate, List.length_take,
        List.length_drop, hsblen]
      omega
    rw [chunkList_flatten_of_mem_length nchan hn _ hcanonlen] at hsb2
    obtain ⟨sb, hsb, hsbeq⟩ := List.mem_map.mp hsb2
    subst hsbeq
    rw [List.countP_append, List.countP_append]
    rw [countP_replicate_true matIsNaN k nanMat rfl]
    have hmid : ((sb.drop k).take (nchan - 2 * k)).countP matIsNaN = 0 := by
      rw [List.countP_eq_zero]
      intro m hm
      have hmrow : m ∈ row := mem_of_mem_chunkList nchan hn row sb hsb m
        (List.mem_of_mem_drop (List.mem_of_mem_take hm))
      simp [hvalid row hrow m hmrow]
    rw [hmid]
    omega
  · unfold _remove_edge_channels
    have : ∀ row ∈ data, ((chunkList nchan row).map (fun sb =>
        pySetSlice ((nchan : ℤ) - 0) (nchan : ℤ) nanMat
          (pySetSlice 0 0 nanMat sb))).flatten = row := by
      intro row hrow
      have hmap : (chunkList nchan row).map (fun sb =>
          pySetSlice ((nchan : ℤ) - 0) (nchan : ℤ) nanMat
            (pySetSlice 0 0 nanMat sb)) = chunkList nchan row := by
        calc (chunkList nchan row).map (fun sb =>
              pySetSlice ((nchan : ℤ) - 0) (nchan : ℤ) nanMat
                (pySetSlice 0 0 nanMat sb))
            = (chunkList nchan row).map id := List.map_congr_left (fun sb hsb => by
              rw [pySetSlice_zero_zero]
              exact pySetSlice_of_lo_ge _ _ _ _ (by rw [hchunklen row hrow sb hsb]; omega))
          _ = chunkList nchan row := List.map_id _
      rw [hmap, flatten_chunkList nchan hn]
    calc data.map (fun row => ((chunkList nchan row).map (fun sb =>
            pySetSlice ((nchan : ℤ) - 0) (nchan : ℤ) nanMat
              (pySetSlice 0 0 nanMat sb))).flatten)
        = data.map id := List.map_congr_left (fun row hrow => this row hrow)
      _ = data := List.map_id data

/-- A concrete valid coherency matrix for the C6 witness. -/
def c6M : Mat2 := ⟨some (1, 0), some (0, 0), some (0, 0), some (1, 0)⟩

/-- One time sample of four frequency channels (one subband of 4 channels)
for the C6 witness. -/
def c6Data : List (List Mat2) := [[c6M, c6M, c6M, c6M]]

/-- Witness for C6 on `c6Data` with `nchan = 4`, `k = 1`: exactly the two
edge channels become NaN and the zero-count call is a no-op. -/
theorem C6_edge_masking_witness :
    _remove_edge_channels c6Data 4 1 1 = [[nanMat, c6M, c6M, nanMat]]
    ∧ (∀ row ∈ _remove_edge_channels c6Data 4 1 1,
        ∀ sb ∈ chunkList 4 row, sb.countP matIsNaN = 2 * 1)
    ∧ _remove_edge_channels c6Data 4 0 0 = c6Data := by
  obtain ⟨h1, h2, h3⟩ := C6_edge_masking c6Data 4 1 (by decide) (by decide)
    (by decide) (by decide)
  simp only [Nat.cast_one] at h1 h2
  refine ⟨?_, h2, h3⟩
  rw [h1]
  simp only [c6Data, List.map_cons, List.map_nil]
  rw [chunkList_of_ne_nil 4 _ (by decide) (by decide)]
  simp [chunkList_nil, c6M]

/-! ## Claim C7: rebinning with a one-sample bin is the identity -/

theorem nanmean_singleton (o : Option ℚ) : nanmean [o] = o := by
  cases o with
  | none => rfl
  | some q => simp [nanmean]

theorem listMean_singleton (t : ℚ) : listMean [t] = t := by
  simp [listMean]

theorem map_range_getD (xs : List α) (d : α) (n : ℕ) (hn : xs.length = n) :
    (List.range n).map (fun i => xs.getD i d) = xs := by
  subst hn
  apply List.ext_getElem
  · simp
  · intro i h1 h2
    simp only [List.getElem_map, List.getElem_range]
    exact List.getD_eq_getElem xs d h2

theorem nanMeanAxis0_singleton (r : List (List (Option ℚ))) (nf np : ℕ)
    (hr : r.length = nf) (hc : ∀ cell ∈ r, cell.length = np) :
    nanMeanAxis0 [r] nf np = r := by
  unfold nanMeanAxis0
  calc (List.range nf).map (fun f => (List.range np).map (fun p =>
          nanmean ([r].map (fun q => (q.getD f []).getD p none))))
      = (List.range nf).map (fun f => r.getD f []) := by
        apply List.map_congr_left
        intro f hf
        have hflt : f < r.length := by
          rw [hr]
          exact List.mem_range.mp hf
        have hcell : r.getD f [] ∈ r := by
          rw [List.getD_eq_getElem r [] hflt]
          exact List.getElem_mem hflt
        calc (List.range np).map (fun p =>
                nanmean ([r].map (fun q => (q.getD f []).getD p none)))
            = (List.range np).map (fun p => (r.getD f []).getD p none) := by
              apply List.map_congr_left
              intro p _
              simp only [List.map_cons, List.map_nil]
              exact nanmean_singleton _
          _ = r.getD f [] := map_range_getD _ _ _ (hc _ hcell)
    _ = r := map_range_getD _ _ _ hr

/-- Claim C7: for every (nonempty, shape-regular) input cube, time-rebinning
with a bin covering exactly one native sample (target bin duration equal to
the native resolution, so `tbins = floor(rebin_dt/dt) = 1`) returns the data
and time axis unchanged with a leftover count of 0; through the combined
rebin stage the frequency axis is returned unchanged as well. -/
theorem C7_unit_rebin_identity (data : Data3) (times freqs : List ℚ) (dt df : ℚ)
    (hdt : dt ≠ 0) (hne : data ≠ [])
    (hrow : ∀ row ∈ data, row.length = (data.headD []).length)
    (hcell : ∀ row ∈ data, ∀ cell ∈ row,
      cell.length = ((data.headD []).headD []).length)
    (htimes : times.length = data.length) :
    timeRebinStep (some dt) dt data times = Except.ok (data, times, 0)
    ∧ _time_frequency_rebin (some dt) none dt df data times freqs
      = Except.ok (freqs, times, data) := by
  have hN : data.length ≠ 0 := by
    intro h
    exact hne (List.length_eq_zero.mp h)
  have htb : ⌊dt / dt⌋ = (1 : ℤ) := by
    rw [div_self hdt]
    exact Int.floor_one
  have hstep : timeRebinStep (some dt) dt data times = Except.ok (data, times, 0) := by
    unfold timeRebinStep
    simp only [htb]
    rw [if_neg (by omega)]
    simp only [Int.toNat_one, Nat.div_one]
    rw [if_neg hN]
    simp only [Nat.mod_self, Nat.sub_zero, Nat.div_self (Nat.pos_of_ne_zero hN)]
    rw [if_neg (by omega)]
    have hslice : pySlice 0 (data.length : ℤ) data = data := pySlice_zero_natCast data
    have hslice2 : pySlice 0 (data.length : ℤ) times = times := by
      rw [← htimes]
      exact pySlice_zero_natCast times
    rw [hslice, hslice2, chunkList_one, chunkList_one]
    have hdata2 : (data.map (fun a => [a])).map (fun c => nanMeanAxis0 c
        (data.headD []).length ((data.headD []).headD []).length) = data := by
      rw [List.map_map]
      calc data.map ((fun c => nanMeanAxis0 c (data.headD []).length
              ((data.headD []).headD []).length) ∘ (fun a => [a]))
          = data.map id := by
            apply List.map_congr_left
            intro r hr
            exact nanMeanAxis0_singleton r _ _ (hrow r hr) (hcell r hr)
        _ = data := List.map_id data
    have htimes2 : (times.map (fun a => [a])).map listMean = times := by
      rw [List.map_map]
      calc times.map (listMean ∘ (fun a => [a]))
          = times.map id := List.map_congr_left (fun t _ => listMean_singleton t)
        _ = times := List.map_id times
    rw [hdata2, htimes2]
  refine ⟨hstep, ?_⟩
  unfold _time_frequency_rebin
  rw [hstep]
  rfl

/-- Witness for C7 at a concrete 2x1x1 cube. -/
theorem C7_unit_rebin_identity_witness :
    timeRebinStep (some 1) 1 [[[some 3]], [[none]]] [0, 1]
      = Except.ok ([[[some 3]], [[none]]], [0, 1], 0)
    ∧ _time_frequency_rebin (some 1) none 1 1 [[[some 3]], [[none]]] [0, 1] [5]
      = Except.ok ([5], [0, 1], [[[some 3]], [[none]]]) := by
  exact C7_unit_rebin_identity [[[some 3]], [[none]]] [0, 1] [5] 1 1
    (by norm_num) (by decide) (by decide) (by decide) (by decide)

/-! ## Claim C4: the time-rebin bin count, leftover accounting, bin means,
and time-before-frequency ordering -/

/-- Claim C4, amended: with `B = floor(rebin_dt / dt) >= 1` covering at most
the `N` native samples, the time rebin produces `N div B` output bins (NOT
`floor(N * dt / rebin_dt)` as originally claimed), reports a leftover count
of `N mod (N div B)` dropped from the trailing edge, computes every output
bin as the NaN-excluding mean of its window of `N div (N div B)` kept
samples, and the combined rebin stage applies the time rebin before the
frequency rebin. -/
theorem C4_time_rebin_amended (data : Data3) (times freqs : List ℚ) (rdt rdf dt df : ℚ)
    (hB : 1 ≤ ⌊rdt / dt⌋) (hBN : (⌊rdt / dt⌋).toNat ≤ data.length) :
    ∃ out tout,
      timeRebinStep (some rdt) dt data times
        = Except.ok (out, tout, data.length % (data.length / (⌊rdt / dt⌋).toNat))
      ∧ out.length = data.length / (⌊rdt / dt⌋).toNat
      ∧ (∀ i, i < data.length / (⌊rdt / dt⌋).toNat →
          out.getD i [] = nanMeanAxis0
            (((data.take (data.length
                  - data.length % (data.length / (⌊rdt / dt⌋).toNat))).drop
                (i * (data.length / (data.length / (⌊rdt / dt⌋).toNat)))).take
              (data.length / (data.length / (⌊rdt / dt⌋).toNat)))
            (data.headD []).length ((data.headD []).headD []).length)
      ∧ _time_frequency_rebin (some rdt) (some rdf) dt df data times freqs
        = (timeRebinStep (some rdt) dt data times).bind (fun r =>
            (freqRebinStep (some rdf) df r.1 freqs).bind (fun s =>
              Except.ok (s.2.1, r.2.1, s.1))) := by
  have hBpos : 0 < (⌊rdt / dt⌋).toNat := by omega
  have hnt : 0 < data.length / (⌊rdt / dt⌋).toNat :=
    (Nat.one_le_div_iff hBpos).mpr hBN
  have hleft : data.length % (data.length / (⌊rdt / dt⌋).toNat) ≤ data.length :=
    Nat.mod_le _ _
  have hsub : data.length - data.length % (data.length / (⌊rdt / dt⌋).toNat)
      = (data.length / (⌊rdt / dt⌋).toNat)
        * (data.length / (data.length / (⌊rdt / dt⌋).toNat)) := by
    have hdm := Nat.div_add_mod data.length (data.length / (⌊rdt / dt⌋).toNat)
    omega
  have hwidth : (data.length - data.length % (data.length / (⌊rdt / dt⌋).toNat))
      / (data.length / (⌊rdt / dt⌋).toNat)
      = data.length / (data.length / (⌊rdt / dt⌋).toNat) := by
    rw [hsub]
    exact Nat.mul_div_cancel_left _ hnt
  have hwpos : 0 < data.length / (data.length / (⌊rdt / dt⌋).toNat) :=
    (Nat.one_le_div_iff hnt).mpr (Nat.div_le_self _ _)
  have hkept : pySlice 0
      (if data.length % (data.length / (⌊rdt / dt⌋).toNat) ≠ 0 then
        -((data.length % (data.length / (⌊rdt / dt⌋).toNat) : ℕ) : ℤ)
      else (data.length : ℤ)) data
      = data.take (data.length
          - data.length % (data.length / (⌊rdt / dt⌋).toNat)) :=
    pySlice_leftover _ data hleft
  have hkeptlen : (data.take (data.length
      - data.length % (data.length / (⌊rdt / dt⌋).toNat))).length
      = (data.length / (⌊rdt / dt⌋).toNat)
        * (data.length / (data.length / (⌊rdt / dt⌋).toNat)) := by
    rw [List.length_take, ← hsub]
    omega
  have hstep : timeRebinStep (some rdt) dt data times = Except.ok (
      (chunkList ((data.length - data.length % (data.length / (⌊rdt / dt⌋).toNat))
          / (data.length / (⌊rdt / dt⌋).toNat))
        (pySlice 0 (if data.length % (data.length / (⌊rdt / dt⌋).toNat) ≠ 0
            then -((data.length % (data.length / (⌊rdt / dt⌋).toNat) : ℕ) : ℤ)
            else (data.length : ℤ)) data)).map
        (fun c => nanMeanAxis0 c (data.headD []).length
          ((data.headD []).headD []).length),
      (chunkList ((data.length - data.length % (data.length / (⌊rdt / dt⌋).toNat))
          / (data.length / (⌊rdt / dt⌋).toNat))
        (pySlice 0 (if data.length % (data.length / (⌊rdt / dt⌋).toNat) ≠ 0
            then -((data.length % (data.length / (⌊rdt / dt⌋).toNat) : ℕ) : ℤ)
            else (data.length : ℤ)) times)).map listMean,
      data.length % (data.length / (⌊rdt / dt⌋).toNat)) := by
    simp only [timeRebinStep]
    rw [if_neg (by omega), if_neg (by omega)]
  refine ⟨_, _, hstep, ?_, ?_, rfl⟩
  · rw [List.length_map, hwidth, hkept]
    exact chunkList_length_of_mul _ hwpos _ _ hkeptlen
  · intro i hi
    rw [hwidth, hkept]
    have hchlen : (chunkList (data.length / (data.length / (⌊rdt / dt⌋).toNat))
        (data.take (data.length
          - data.length % (data.length / (⌊rdt / dt⌋).toNat)))).length
        = data.length / (⌊rdt / dt⌋).toNat :=
      chunkList_length_of_mul _ hwpos _ _ hkeptlen
    rw [getD_map_of_lt _ _ i [] [] (by rw [hchlen]; exact hi)]
    rw [chunkList_getD _ hwpos]

/-- Seven native time samples, one frequency, one polarization. -/
def c4data : Data3 := [[[some 1]], [[some 1]], [[some 1]], [[some 1]], [[some 1]], [[some 1]], [[some 1]]]

/-- The native time axis matching `c4data`. -/
def c4times : List ℚ := [0, 1, 2, 3, 4, 5, 6]

/-- Counterexample for C4: with `N = 7` native samples, `dt = 1 s` and
`rebin_dt = 2.5 s` (so `B = floor(2.5/1) = 2`), the code produces
`7 div 2 = 3` output bins (with leftover `7 mod 3 = 1`), whereas the claim
says the bin count is `floor(N * dt / rebin_dt) = floor(2.8) = 2`. -/
theorem C4_time_rebin_counterexample :
    timeRebinStep (some (5/2 : ℚ)) 1 c4data c4times
      = Except.ok ([[[some 1]], [[some 1]], [[some 1]]], [1/2, 5/2, 9/2], 1)
    ∧ (3 : ℕ) ≠ Int.toNat ⌊((7 : ℚ) * 1) / (5/2 : ℚ)⌋ := by
  have hfl : ⌊(5/2 : ℚ) / 1⌋ = 2 := by norm_num
  constructor
  · simp only [timeRebinStep, hfl, c4data, c4times, show Int.toNat 2 = 2 from rfl]
    norm_num [chunkList, pySlice, pySliceIdx, nanMeanAxis0, nanmean, listMean]
    simp only [show Int.toNat 6 = 6 from rfl]
    norm_num [chunkList, listMean]
    simp [List.range_succ, nanmean, listMean]
  · have h7 : ⌊((7 : ℚ) * 1) / (5/2 : ℚ)⌋ = 2 := by norm_num
    rw [h7]
    omega

/-- Witness for the amended C4 on `c4data` (`N = 7`, `B = 2`): the leftover
count is `7 mod (7 div 2) = 1` and the output has `7 div 2 = 3` bins. -/
theorem C4_time_rebin_amended_witness :
    (1 ≤ ⌊(5/2 : ℚ) / 1⌋) ∧ ((⌊(5/2 : ℚ) / 1⌋).toNat ≤ c4data.length)
    ∧ ∃ out tout,
      timeRebinStep (some (5/2 : ℚ)) 1 c4data c4times
        = Except.ok (out, tout,
            c4data.length % (c4data.length / (⌊(5/2 : ℚ) / 1⌋).toNat))
      ∧ out.length = c4data.length / (⌊(5/2 : ℚ) / 1⌋).toNat := by
  have hfl : ⌊(5/2 : ℚ) / 1⌋ = 2 := by norm_num
  have hB : 1 ≤ ⌊(5/2 : ℚ) / 1⌋ := by rw [hfl]; norm_num
  have hBN : (⌊(5/2 : ℚ) / 1⌋).toNat ≤ c4data.length := by rw [hfl]; decide
  obtain ⟨out, tout, h1, h2, _, _⟩ :=
    C4_time_rebin_amended c4data c4times [5] (5/2) 1 1 1 hB hBN
  exact ⟨hB, hBN, out, tout, h1, h2⟩

/-! ## Claim C9: the default processing configuration -/

/-- A successful `_ProcessingConfiguration.__init__` yields exactly the
documented defaults: `beam = 0`, `correct_bandpass = True`,
`edge_channels_to_remove = 0`, `rebin_dt = rebin_df = None`, and the time
and frequency ranges are the full spans passed by `Spectra.__init__`. -/
theorem _ProcessingConfiguration_init_ok (tmin tmax fmin fmax : ℚ) (ab : List ℤ)
    (cfg : ProcessingConfiguration)
    (h : _ProcessingConfiguration_init tmin tmax fmin fmax ab = Except.ok cfg) :
    cfg._beam = 0
    ∧ cfg.correct_bandpass = true
    ∧ cfg._edge_channels_to_remove = PyEdge.eInt 0
    ∧ cfg.rebin_dt = none
    ∧ cfg.rebin_df = none
    ∧ cfg._time_range = (tmin, tmax)
    ∧ cfg._frequency_range = (fmin, fmax)
    ∧ cfg.available_beams = ab := by
  by_cases h1 : tmin ≥ tmax
  · simp [_ProcessingConfiguration_init, time_range_set, h1, Except.instMonad,
      Except.bind, Except.map] at h
  · by_cases h2 : fmin ≥ fmax
    · simp [_ProcessingConfiguration_init, time_range_set, frequency_range_set,
        h1, h2, Except.instMonad, Except.bind, Except.map] at h
    · by_cases h3 : (0 : ℤ) ∈ ab
      · simp [_ProcessingConfiguration_init, time_range_set, frequency_range_set,
          beam_set, edge_channels_to_remove_set, h1, h2, h3, Except.instMonad,
          Except.bind, Except.map, Except.pure] at h
        subst h
        simp
      · simp [_ProcessingConfiguration_init, time_range_set, frequency_range_set,
          beam_set, h1, h2, h3, Except.instMonad, Except.bind, Except.map] at h

/-- Claim C9: for every file that opens successfully, the default processing
configuration is `beam = 0`, `correct_bandpass = True`,
`edge_channels_to_remove = 0`, `rebin_dt = rebin_df = None`, the time range
spans from the first valid block's start time to the last valid block's
start time plus one block duration (`n_time_per_block * dt`), and the
frequency range spans from the first subband's start frequency to the last
subband's start frequency plus one subband width (195312.5 Hz). -/
theorem C9_default_configuration (file : List Block) (sp : Spectra)
    (h : spectra_init file = Except.ok sp) :
    sp.configuration._beam = 0
    ∧ sp.configuration.correct_bandpass = true
    ∧ sp.configuration._edge_channels_to_remove = PyEdge.eInt 0
    ∧ sp.configuration.rebin_dt = none
    ∧ sp.configuration.rebin_df = none
    ∧ sp.configuration._time_range
      = (sp._block_start_unix.headD 0,
         sp._block_start_unix.getLastD 0 + (sp._n_time_per_block : ℚ) * sp.dt)
    ∧ sp.configuration._frequency_range
      = (sp._subband_start_hz.headD 0,
         sp._subband_start_hz.getLastD 0 + 195312.5) := by
  cases file with
  | nil => simp [spectra_init, _lazy_load_data] at h
  | cons b0 rest =>
    rw [spectra_init] at h
    simp only [_lazy_load_data] at h
    split at h
    case h_2 => exact absurd h (by simp)
    case h_1 t0 tL f0 fL heq1 heq2 heq3 heq4 =>
      split at h
      case h_1 => exact absurd h (by simp)
      case h_2 cfg heqc =>
        have hsp := (Except.ok.injEq _ _).mp h
        subst hsp
        obtain ⟨hc1, hc2, hc3, hc4, hc5, hc6, hc7, _⟩ :=
          _ProcessingConfiguration_init_ok _ _ _ _ _ _ heqc
        refine ⟨hc1, hc2, hc3, hc4, hc5, ?_, ?_⟩
        · rw [hc6]
          congr 1
          · rw [List.headD_eq_head?_getD, heq1]
            rfl
          · rw [List.getLastD_eq_getLast?, heq2]
            rfl
        · rw [hc7]
          congr 1
          · rw [List.headD_eq_head?_getD, heq3]
            rfl
          · rw [List.getLastD_eq_getLast?, heq4]
            rfl

/-- A concrete one-subband payload for the C9 witness. -/
def c9Sb : SubbandData :=
  ⟨0, 0, 100, [[(1, 0), (0, 0)], [(0, 0), (0, 0)]], [[(0, 0), (0, 0)], [(0, 0), (0, 0)]]⟩

/-- A concrete valid block for the C9 witness (`fftlen = 2`, `nffte = 2`,
`nbchan = 1`, beam 0). -/
def c9Block : Block := ⟨5, 1000, 0, 2, 1, 0, 0, 2, 1, [c9Sb]⟩

/-- The one-block file of the C9 witness. -/
def c9File : List Block := [c9Block]

/-- A successful run of `_ProcessingConfiguration_init` on the concrete
values produced by opening `c9File`. -/
theorem c9_config_init_ok :
    (_ProcessingConfiguration_init 1000 (1000 + 2 * (2 / subband_width_hz))
      (100 * subband_width_hz) (100 * subband_width_hz + subband_width_hz)
      [0]).isOk = true := by
  have h1 : ¬ ((1000 : ℚ) ≥ 1000 + 2 * (2 / subband_width_hz)) := by
    norm_num [subband_width_hz]
  have h2 : ¬ ((100 * subband_width_hz : ℚ)
      ≥ 100 * subband_width_hz + subband_width_hz) := by
    norm_num [subband_width_hz]
  simp [_ProcessingConfiguration_init, time_range_set, frequency_range_set, beam_set,
    edge_channels_to_remove_set, Except.instMonad, Except.bind, Except.map,
    Except.pure, Except.isOk, Except.toBool, h1, h2]

/-- Witness for C9: opening the concrete file `c9File` succeeds and the
default configuration holds. -/
theorem C9_default_configuration_witness :
    ∃ sp, spectra_init c9File = Except.ok sp
      ∧ sp.configuration._beam = 0
      ∧ sp.configuration.correct_bandpass = true
      ∧ sp.configuration.rebin_dt = none
      ∧ sp.configuration.rebin_df = none := by
  have hkeys : List.map ((fun kv => str_to_int kv.1) ∘ fun r =>
      (toString r.1, r.2.1 * Int.toNat 2, (r.2.2 + 1) * Int.toNat 2 - 1))
      (beamRunsAux ([] : List ℤ) 1 0 0) = [0] := by decide
  have hinit : ∃ sp, spectra_init c9File = Except.ok sp := by
    simp only [spectra_init, _lazy_load_data, c9File, c9Block, c9Sb, _get_bad_data_mask,
      setFirstFalse, List.map_cons, List.map_nil, List.zip_cons_cons, List.zip_nil_right,
      List.filterMap_cons, List.filterMap_nil, List.head?_cons, List.getLast?_singleton,
      sort_beam_edges, beamRuns]
    norm_num [hkeys]
    cases hc : _ProcessingConfiguration_init 1000 (1000 + 2 * (2 / subband_width_hz))
        (100 * subband_width_hz) (100 * subband_width_hz + subband_width_hz) [0] with
    | error e =>
      have := c9_config_init_ok
      rw [hc] at this
      simp [Except.isOk, Except.toBool] at this
    | ok cfg => exact ⟨_, rfl⟩
  obtain ⟨sp, hs⟩ := hinit
  obtain ⟨h1, h2, _, h4, h5, _, _⟩ := C9_default_configuration c9File sp hs
  exact ⟨sp, hs, h1, h2, h4, h5⟩
